import Mathlib

/-!
Verification of the local-music web player (ayushrawat220804/spotify).

This file shallowly embeds the playback-relevant parts of the repository:

* the playlist/shuffle session logic of the enhanced player page
  (`getNextTrackIndex`, `getPreviousTrackIndex`, `handleNextTrack`,
  `handlePreviousTrack`, `handleShuffleChange`, `handleEnded`);
* the Web Audio context manager
  (`safelyCloseAudioContext`, `safeResetAudioContext`, `createNewContext`
  from `useAudioContext.ts`);
* the autoplay-retry track-load flow and `handleSeek` from
  `useAudioPlayer.ts`;
* the bass-analysis polling loop (`analyzeBass` and its effect).

JavaScript numbers used as array indices are modelled as integers with the
sentinel -1, `Math.random()`-driven picks are modelled by an oracle
argument `rand : Nat` (the picked position is `rand % length`), and the
byte-valued frequency snapshot is modelled as a function `Nat -> Nat`.
Floating-point arithmetic of the bass formula is modelled over the reals.
-/

namespace Spotify

/-! ## Playlist session model (source: src/unnamed/part_008) -/

/-- State of the enhanced player page: track list length, current index
(-1 when nothing selected), the loaded track (by index), shuffle flag,
shuffle history and the cursor into it. -/
structure Session where
  tracksLen : Nat
  currentTrackIndex : Int
  currentTrack : Option Int
  isShuffled : Bool
  shuffleHistory : List Int
  shuffleHistoryIndex : Int
  deriving Repr, DecidableEq

/-- JavaScript array read `l[i]` under the guards used by the source;
out-of-range reads (never reached under those guards) give -1. -/
def jsGet (l : List Int) (i : Int) : Int :=
  if 0 ≤ i then l.getD i.toNat (-1) else -1

/-- `Array.from({length: n}, (_, i) => i).filter(idx => idx !== cur)`:
the candidate indices for a random shuffle pick. -/
def availableIndexes (n : Nat) (cur : Int) : List Int :=
  ((List.range n).map fun i : Nat => (i : Int)).filter fun idx => idx ≠ cur

/-- `getNextTrackIndex` (part_008 lines 1881-1908): sequential advance or
shuffle-aware advance (history replay, then random pick excluding the
current index, single-track repeat, -1 when empty). `rand` is the
randomness oracle. -/
def getNextTrackIndex (rand : Nat) (s : Session) : Int :=
  if ¬ s.isShuffled then
    if s.currentTrackIndex < (s.tracksLen : Int) - 1 then s.currentTrackIndex + 1 else -1
  else if s.tracksLen = 0 then -1
  else if s.shuffleHistoryIndex < (s.shuffleHistory.length : Int) - 1 then
    jsGet s.shuffleHistory (s.shuffleHistoryIndex + 1)
  else if 1 < s.tracksLen then
    let avail := availableIndexes s.tracksLen s.currentTrackIndex
    jsGet avail ((rand % avail.length : Nat) : Int)
  else if s.tracksLen = 1 then
    s.currentTrackIndex
  else -1

/-- `getPreviousTrackIndex` (part_008 lines 1912-1924): sequential step
back, or a step back through the shuffle history. -/
def getPreviousTrackIndex (s : Session) : Int :=
  if ¬ s.isShuffled then
    if 0 < s.currentTrackIndex then s.currentTrackIndex - 1 else -1
  else if 0 < s.shuffleHistory.length ∧ 0 < s.shuffleHistoryIndex then
    jsGet s.shuffleHistory (s.shuffleHistoryIndex - 1)
  else -1

/-- `handlePreviousTrack` (part_008 lines 1947-1971): on a valid target,
set the current index, move the shuffle cursor back (history untouched),
and load the track. On -1 do nothing. -/
def handlePreviousTrack (s : Session) : Session :=
  let newIndex := getPreviousTrackIndex s
  if newIndex ≠ -1 then
    let s1 := { s with currentTrackIndex := newIndex }
    let s2 :=
      if s.isShuffled ∧ 0 < s.shuffleHistoryIndex then
        { s1 with shuffleHistoryIndex := s.shuffleHistoryIndex - 1 }
      else s1
    { s2 with currentTrack := some newIndex }
  else s

/-- `handleNextTrack` (part_008 lines 1973-1998): on a valid target, set
the current index; in shuffle mode either move the cursor forward inside
history or append the new pick to history; then load the track. On -1 do
nothing. -/
def handleNextTrack (rand : Nat) (s : Session) : Session :=
  let newIndex := getNextTrackIndex rand s
  if newIndex ≠ -1 then
    let s1 := { s with currentTrackIndex := newIndex }
    let s2 :=
      if s.isShuffled then
        if s.shuffleHistoryIndex < (s.shuffleHistory.length : Int) - 1 then
          { s1 with shuffleHistoryIndex := s.shuffleHistoryIndex + 1 }
        else
          let newHistory := s.shuffleHistory.take (s.shuffleHistoryIndex + 1).toNat ++ [newIndex]
          { s1 with shuffleHistory := newHistory,
                    shuffleHistoryIndex := (newHistory.length : Int) - 1 }
      else s1
    { s2 with currentTrack := some newIndex }
  else s

/-- `handleShuffleChange` (part_008 lines 1928-1944): enabling shuffle
seeds the history with the current index when one is selected; disabling
clears history and cursor. -/
def handleShuffleChange (enabled : Bool) (s : Session) : Session :=
  if enabled then
    if s.currentTrackIndex ≠ -1 then
      { s with isShuffled := true, shuffleHistory := [s.currentTrackIndex],
               shuffleHistoryIndex := 0 }
    else
      { s with isShuffled := true, shuffleHistory := [], shuffleHistoryIndex := -1 }
  else
    { s with isShuffled := false, shuffleHistory := [], shuffleHistoryIndex := -1 }

/-- Applying a sequence of next-track requests, each with its own
randomness oracle value. -/
def applyNexts (s : Session) (rs : List Nat) : Session :=
  rs.foldl (fun t r => handleNextTrack r t) s

/-- Which follow-up the `handleEnded` callback runs after unconditionally
stopping and resetting the position. -/
inductive EndedAction where
  | replay
  | next
  | previous
  | stop
  deriving Repr, DecidableEq

/-- Branching of `handleEnded` (part_008 lines 559-587): repeat-one
(`repeatMode = 2`) replays in place; repeat-all (`repeatMode = 1`) with a
next track advances; repeat-all at the end with a previous track runs the
previous-track callback; otherwise advance when a next track exists, else
nothing further happens. The wired callbacks `onNext`/`onPrevious` are the
parent page functions `handleNextTrack`/`handlePreviousTrack`. -/
def handleEndedAction (repeatMode : Nat) (hasNext hasPrevious : Bool) : EndedAction :=
  if repeatMode = 2 then .replay
  else if repeatMode = 1 ∧ hasNext then .next
  else if repeatMode = 1 ∧ ¬hasNext ∧ hasPrevious then .previous
  else if hasNext then .next
  else .stop

/-- Flags touched by `handleEnded` before its branch: it always sets
`isPlaying` false and the displayed and element positions to 0; the
repeat-one branch then replays, making `isPlaying` true again. -/
structure EndedFlags where
  isPlaying : Bool
  currentTime : Rat
  audioTime : Rat
  deriving Repr, DecidableEq

/-- State effect of `handleEnded` (part_008 lines 559-587). -/
def handleEndedFlags (repeatMode : Nat) (s : EndedFlags) : EndedFlags :=
  let s1 : EndedFlags := { s with isPlaying := false, currentTime := 0, audioTime := 0 }
  if repeatMode = 2 then { s1 with isPlaying := true } else s1

/-- The failing scenario for the repeat-all wrap branch: a sequential
playlist of three tracks with the last one current. -/
def endedDemoSession : Session :=
  { tracksLen := 3, currentTrackIndex := 2, currentTrack := some 2,
    isShuffled := false, shuffleHistory := [], shuffleHistoryIndex := -1 }

/-! ## Audio context manager model
(source: src/spotify_downloads/client/src/components/audio-player/hooks/useAudioContext.ts) -/

/-- World of the context manager: an id allocator, the ids of contexts
created and not yet closed (`live`), which context wrapped the media
element in a source node, the hook-tracked context/analyser/source, the
number of wrap attempts made, and how often `close()` was invoked per
context. -/
structure AudioWorld where
  nextId : Nat
  live : List Nat
  wrappedBy : Option Nat
  tracked : Option Nat
  trackedAnalyser : Bool
  trackedSource : Bool
  wrapAttempts : Nat
  closeCalls : Nat → Nat

/-- `safelyCloseAudioContext` (lines 15-32): checks the context state and
skips a context already closed; otherwise invokes `close()` exactly once. -/
def safelyCloseAudioContext (w : AudioWorld) (c : Nat) : AudioWorld :=
  if c ∈ w.live then
    { w with live := w.live.erase c,
             closeCalls := fun x => if x = c then w.closeCalls x + 1 else w.closeCalls x }
  else w

/-- `safeResetAudioContext` (lines 85-120): disconnect and drop the source
and analyser, then close the tracked context through the safe helper and
drop it. The close promise itself is not awaited by the function (see the
timeline model below); its state effect is recorded here. -/
def safeResetAudioContext (w : AudioWorld) : AudioWorld :=
  let w1 := { w with trackedSource := false, trackedAnalyser := false }
  match w1.tracked with
  | none => w1
  | some c => { safelyCloseAudioContext w1 c with tracked := none }

/-- `createMediaElementSource` conflict test: wrapping fails while the
context that wrapped the element is still open. -/
def wrapConflict (w : AudioWorld) : Bool :=
  match w.wrappedBy with
  | none => false
  | some c => decide (c ∈ w.live)

/-- `createNewContext` (lines 144-256): construct a context and analyser,
attempt to wrap the element; on an already-connected conflict, await the
safe close of the tracked context, construct a retry context and attempt
the wrap once more; a second conflict returns false. The context from the
failed first attempt is left as it is. -/
def createNewContext (w : AudioWorld) : AudioWorld × Bool :=
  let c1 := w.nextId
  let w1 := { w with nextId := w.nextId + 1, live := c1 :: w.live }
  let w2 := { w1 with wrapAttempts := w1.wrapAttempts + 1 }
  if wrapConflict w2 then
    let w3 :=
      match w2.tracked with
      | some c => { safelyCloseAudioContext w2 c with tracked := none }
      | none => w2
    let c2 := w3.nextId
    let w4 := { w3 with nextId := w3.nextId + 1, live := c2 :: w3.live }
    let w5 := { w4 with wrapAttempts := w4.wrapAttempts + 1 }
    if wrapConflict w5 then (w5, false)
    else ({ w5 with wrappedBy := some c2, tracked := some c2,
                    trackedAnalyser := true, trackedSource := true }, true)
  else
    ({ w2 with wrappedBy := some c1, tracked := some c1,
               trackedAnalyser := true, trackedSource := true }, true)

/-- A fresh world: no context exists yet and the element is unwrapped. -/
def freshWorld : AudioWorld :=
  { nextId := 0, live := [], wrappedBy := none, tracked := none,
    trackedAnalyser := false, trackedSource := false, wrapAttempts := 0,
    closeCalls := fun _ => 0 }

/-! ## Timeline model of the reset/create async structure -/

/-- Observable events of one reset/create episode. -/
inductive AEvent where
  | resetReturn
  | closeComplete
  | contextConstructed
  deriving Repr, DecidableEq

/-- `safeResetAudioContext` called at time `t`: it chains the close with
`.then` and returns immediately, so the caller observes the return at `t`
while the close promise resolves `closeDur` later. -/
def safeResetTimeline (t closeDur : Nat) : List (Nat × AEvent) :=
  [(t, AEvent.resetReturn), (t + closeDur, AEvent.closeComplete)]

/-- `createAudioContext` (lines 125-141) called at time `t`: with an
existing context it runs the reset and schedules `createNewContext` via a
100 ms timeout; without one it constructs immediately. -/
def createGraphTimeline (t closeDur : Nat) (hasExisting : Bool) : List (Nat × AEvent) :=
  if hasExisting then
    safeResetTimeline t closeDur ++ [(t + 100, AEvent.contextConstructed)]
  else
    [(t, AEvent.contextConstructed)]

/-- Time at which an event occurs on a timeline. -/
def eventTime (l : List (Nat × AEvent)) (e : AEvent) : Option Nat :=
  (l.find? fun p => p.2 = e).map fun p => p.1

/-! ## Track-load and autoplay-retry flow
(source: src/spotify_downloads/client/src/components/audio-player/hooks/useAudioPlayer.ts) -/

/-- UI-visible outcome state of the track-load effect: playing flag,
loading flag, surfaced error, number of `play()` calls issued, and the
delay of the scheduled retry when one was armed. -/
structure PlayerFlowState where
  isPlaying : Bool
  loading : Bool
  error : Option String
  playCalls : Nat
  retryDelayMs : Option Nat
  deriving Repr, DecidableEq

/-- `handleSuccess` (lines 98-104). -/
def flowHandleSuccess (s : PlayerFlowState) : PlayerFlowState :=
  { s with loading := false, isPlaying := true }

/-- `handleFailure` (lines 107-123). -/
def flowHandleFailure (msg : String) (s : PlayerFlowState) : PlayerFlowState :=
  { s with loading := false, isPlaying := false,
           error := some ("Error loading audio: " ++ msg) }

/-- The play attempt of the load effect (lines 146-167): `play()`, and on
rejection one retry scheduled 300 ms later; a second rejection runs
`handleFailure`. `ok1`/`ok2` are the browser outcomes of the two
attempts. -/
def attemptAutoplay (ok1 ok2 : Bool) (msg : String) (s : PlayerFlowState) : PlayerFlowState :=
  let s1 := { s with playCalls := s.playCalls + 1 }
  if ok1 then flowHandleSuccess s1
  else
    let s2 := { s1 with retryDelayMs := some 300, playCalls := s1.playCalls + 1 }
    if ok2 then flowHandleSuccess s2 else flowHandleFailure msg s2

/-- The whole load effect (lines 64-177) as seen by the UI: it starts
loading with the error cleared, then runs the autoplay attempt. -/
def loadTrackEffect (ok1 ok2 : Bool) (msg : String) : PlayerFlowState :=
  attemptAutoplay ok1 ok2 msg
    { isPlaying := false, loading := true, error := none, playCalls := 0,
      retryDelayMs := none }

/-! ## Seek handler (useAudioPlayer.ts lines 300-305 and part_008 lines 614-620) -/

/-- Displayed position, element position, and known duration (0 before
metadata arrives). -/
structure SeekState where
  currentTime : Rat
  elementTime : Rat
  duration : Rat
  deriving Repr, DecidableEq

/-- `handleSeek`: both implementations write the requested time to the
displayed state and to the element position as given. -/
def handleSeek (s : SeekState) (t : Rat) : SeekState :=
  { s with currentTime := t, elementTime := t }

/-- A state with a known duration of 100 seconds, used to exhibit the
absence of clamping. -/
def seekDemo : SeekState := { currentTime := 0, elementTime := 0, duration := 100 }

/-! ## Bass analysis (source: src/unnamed/part_008 lines 810-871) -/

/-- The bass-intensity computation of `analyzeBass`: sum and max of the
lowest 8 bins of the byte snapshot, average normalized by `8 * 255`,
blended `avg * 0.7 + peak * 0.3` capped at 1, then `pow 0.8` and a 0.8
scale. -/
noncomputable def analyzeBassValue (data : Nat → Nat) : Real :=
  let bassRange : Nat := 8
  let bins := (List.range bassRange).map data
  let bassSum : Nat := bins.sum
  let maxBassValue : Nat := bins.foldl max 0
  let avgBass : Real := (bassSum : Real) / ((bassRange : Real) * 255)
  let normalizedBass : Real := min 1 (avgBass * 0.7 + ((maxBassValue : Real) / 255) * 0.3)
  Real.rpow normalizedBass 0.8 * 0.8

/-- The bass formula as the specification words it: over the lowest 8
bins, `avg = mean(bins) / 255`, `peak = max(bins) / 255`,
`normalized = min 1 (avg * 0.7 + peak * 0.3)`, and the published value
`normalized ^ 0.8 * 0.8`. Stated separately to compare with the source
computation. -/
noncomputable def specBassOutput (data : Nat → Nat) : Real :=
  let bins := (List.range 8).map data
  let avg : Real := ((bins.sum : Real) / (bins.length : Real)) / 255
  let peak : Real := ((bins.foldl max 0 : Nat) : Real) / 255
  let normalized : Real := min 1 (avg * 0.7 + peak * 0.3)
  Real.rpow normalized 0.8 * 0.8

/-- State of the analysis effect: playing flag, analyser availability, the
current frequency snapshot, the scheduled animation-frame handle (none
when cancelled or never armed), a handle allocator, and the published
bass value. -/
structure AnalyzerState where
  isPlaying : Bool
  analyserAvailable : Bool
  data : Nat → Nat
  scheduledTick : Option Nat
  nextHandle : Nat
  bassValue : Real

/-- One run of the `analyzeBass` callback: read the snapshot, publish the
computed value, and schedule the following animation frame. -/
noncomputable def runAnalyze (s : AnalyzerState) : AnalyzerState :=
  { s with bassValue := analyzeBassValue s.data,
           scheduledTick := some s.nextHandle,
           nextHandle := s.nextHandle + 1 }

/-- Effect cleanup (lines 864-869): cancel the scheduled animation frame
and null the handle. -/
def effectCleanup (s : AnalyzerState) : AnalyzerState :=
  { s with scheduledTick := none }

/-- Effect body (lines 810-862): without an analyser or while not playing
it only resets the published value to 0 (when not playing) and schedules
nothing; otherwise it starts the analysis loop. -/
noncomputable def effectBody (s : AnalyzerState) : AnalyzerState :=
  if ¬ s.analyserAvailable ∨ ¬ s.isPlaying then
    if ¬ s.isPlaying then { s with bassValue := 0 } else s
  else runAnalyze s

/-- The transition performed by React when `isPlaying` flips to false: the
cleanup of the previous effect run, then the body of the new run. -/
noncomputable def setPlayingFalse (s : AnalyzerState) : AnalyzerState :=
  effectBody (effectCleanup { s with isPlaying := false })

/-- A scheduled animation frame firing: a cancelled (none) handle never
fires; a live one runs the analysis callback. -/
noncomputable def stepTick (s : AnalyzerState) : AnalyzerState :=
  match s.scheduledTick with
  | none => s
  | some _ => runAnalyze s

/-! ## Invariant and concrete states used by the theorems -/

/-- Shape of a shuffle session reachable by next-track requests after
enabling shuffle on a selected track: shuffle is active, the history is
nonempty, the cursor sits at the last history entry, the last entry is the
current (nonnegative) index. -/
def ShuffleInv (s : Session) : Prop :=
  s.isShuffled = true ∧
  1 ≤ s.shuffleHistory.length ∧
  s.shuffleHistoryIndex = (s.shuffleHistory.length : Int) - 1 ∧
  s.shuffleHistory.getLast? = some s.currentTrackIndex ∧
  0 ≤ s.currentTrackIndex

/-- A one-track shuffle session at the end of its history. -/
def shuffleDemoOne : Session :=
  { tracksLen := 1, currentTrackIndex := 0, currentTrack := some 0,
    isShuffled := true, shuffleHistory := [0], shuffleHistoryIndex := 0 }

/-- A world with one live context that wraps the media element and is
tracked by the hook: the state after a successful `createNewContext` on a
fresh world. -/
def conflictDemoWorld : AudioWorld :=
  { nextId := 1, live := [0], wrappedBy := some 0, tracked := some 0,
    trackedAnalyser := true, trackedSource := true, wrapAttempts := 1,
    closeCalls := fun _ => 0 }

/-- A world with one live tracked context, used to instantiate the close
idempotence theorem. -/
def resetDemoWorld : AudioWorld :=
  { nextId := 1, live := [0], wrappedBy := some 0, tracked := some 0,
    trackedAnalyser := true, trackedSource := true, wrapAttempts := 1,
    closeCalls := fun _ => 0 }

/-! ## Theorems -/

theorem erase_no_second_copy {l : List Nat} {c : Nat} (hcount : l.count c ≤ 1) :
    c ∉ l.erase c := by
  intro hmem
  have h1 := List.count_erase_self c l
  have h2 : 0 < (l.erase c).count c := List.count_pos_iff.mpr hmem
  omega

/-- C1 (code bug witness): on a track-ended event with repeat-all, no next
track and a previous track, `handleEnded` runs the previous-track
callback; on the sequential three-track playlist with the last track
current, that callback moves to index 1 (the previous track), not to the
first track (index 0) as the claim and the comment in `handleEnded`
state. -/
theorem handleEnded_repeatAll_end_divergence :
    handleEndedAction 1 false true = EndedAction.previous ∧
    getPreviousTrackIndex endedDemoSession = 1 ∧
    (handlePreviousTrack endedDemoSession).currentTrackIndex = 1 ∧
    (handlePreviousTrack endedDemoSession).currentTrackIndex ≠ 0 := by
  decide

/-- C2 (counterexample): calling `createNewContext` twice in succession on
a fresh world makes the second call take the conflict-retry path and
succeed, but two contexts remain open afterwards (the retry context and
the abandoned context from the failed first wrap attempt), not exactly
one. -/
theorem createNewContext_leak_counterexample :
    (createNewContext (createNewContext freshWorld).1).2 = true ∧
    (createNewContext (createNewContext freshWorld).1).1.live.length = 2 ∧
    ¬ (createNewContext (createNewContext freshWorld).1).1.live.length = 1 := by
  decide

/-- C3 (counterexample): with a close that takes 200 ms, the reset returns
at time 0 while its close completes at 200, and the create that follows a
reset constructs the new context at 100, before the close has completed. -/
theorem safeReset_not_awaited_counterexample :
    eventTime (safeResetTimeline 0 200) AEvent.resetReturn = some 0 ∧
    eventTime (safeResetTimeline 0 200) AEvent.closeComplete = some 200 ∧
    eventTime (createGraphTimeline 0 200 true) AEvent.contextConstructed = some 100 ∧
    ¬ ((200 : Nat) ≤ 0) ∧ ¬ ((200 : Nat) ≤ 100) := by
  decide

/-- C3 (amended): `safeResetAudioContext` returns at its call time while
the chained close completes `closeDur` later, and `createAudioContext`
constructs the replacement context a fixed 100 ms after the reset, so the
close has completed by construction time exactly when it takes at most
100 ms. -/
theorem resetCreate_timeline_spec :
    ∀ (t closeDur : Nat),
      eventTime (safeResetTimeline t closeDur) AEvent.resetReturn = some t ∧
      eventTime (safeResetTimeline t closeDur) AEvent.closeComplete = some (t + closeDur) ∧
      eventTime (createGraphTimeline t closeDur true) AEvent.contextConstructed
        = some (t + 100) ∧
      (t + closeDur ≤ t + 100 ↔ closeDur ≤ 100) := by
  intro t closeDur
  refine ⟨rfl, ?_, ?_, by omega⟩
  · simp [eventTime, safeResetTimeline, List.find?]
  · simp [eventTime, createGraphTimeline, safeResetTimeline, List.find?]

/-- C6: across every pair of browser outcomes, the load effect issues one
play call on success, exactly one retry (two calls total, with a fixed
300 ms delay) on a first rejection, reaches the playing state exactly when
an attempt succeeded, and surfaces an error exactly when both attempts
were rejected. -/
theorem autoplay_retry_exactly_once :
    ∀ (ok1 ok2 : Bool) (msg : String),
      (loadTrackEffect ok1 ok2 msg).playCalls = (if ok1 then 1 else 2) ∧
      (loadTrackEffect ok1 ok2 msg).playCalls ≤ 2 ∧
      (loadTrackEffect ok1 ok2 msg).retryDelayMs = (if ok1 then none else some 300) ∧
      (loadTrackEffect ok1 ok2 msg).isPlaying = (ok1 || ok2) ∧
      (loadTrackEffect ok1 ok2 msg).error.isSome = (!ok1 && !ok2) := by
  intro ok1 ok2 msg
  cases ok1 <;> cases ok2 <;>
    simp [loadTrackEffect, attemptAutoplay, flowHandleSuccess, flowHandleFailure]

/-- C9 (counterexample): seeking to 250 on a track of duration 100 sets
the displayed position to 250, outside [0, duration]; nothing clamps. -/
theorem handleSeek_no_clamp_counterexample :
    (handleSeek seekDemo 250).currentTime = 250 ∧
    seekDemo.duration = 100 ∧
    ¬ ((handleSeek seekDemo 250).currentTime ≤ seekDemo.duration) := by
  refine ⟨rfl, rfl, ?_⟩
  norm_num [handleSeek, seekDemo]

/-- C9 (amended): `handleSeek` writes the requested time verbatim to the
displayed position and the element position, with no clamping to
[0, duration] and no guard on an unknown duration. -/
theorem handleSeek_passthrough :
    ∀ (s : SeekState) (t : Rat),
      (handleSeek s t).currentTime = t ∧
      (handleSeek s t).elementTime = t ∧
      (handleSeek s t).duration = s.duration :=
  fun _ _ => ⟨rfl, rfl, rfl⟩

/-- C5: the context state is checked before every close, a context already
closed is skipped, so a second `safeResetAudioContext` without an
intervening create is a no-op, a repeated safe close is a no-op, and one
reset invokes `close()` on a context at most once. -/
theorem safeReset_idempotent_no_double_close :
    ∀ (w : AudioWorld) (c : Nat), w.live.count c ≤ 1 →
      safeResetAudioContext (safeResetAudioContext w) = safeResetAudioContext w ∧
      safelyCloseAudioContext (safelyCloseAudioContext w c) c
        = safelyCloseAudioContext w c ∧
      (safelyCloseAudioContext w c).closeCalls c ≤ w.closeCalls c + 1 := by
  intro w c hcount
  obtain ⟨nid, live, wb, tr, ta, ts, wa, cc⟩ := w
  refine ⟨?_, ?_, ?_⟩
  · cases tr with
    | none => rfl
    | some c0 =>
      by_cases hm : c0 ∈ live <;>
        simp [safeResetAudioContext, safelyCloseAudioContext, hm]
  · by_cases hm : c ∈ live
    · have hnot : c ∉ live.erase c := erase_no_second_copy hcount
      simp [safelyCloseAudioContext, hm, hnot]
    · simp [safelyCloseAudioContext, hm]
  · by_cases hm : c ∈ live <;> simp [safelyCloseAudioContext, hm]

/-- C5 (witness): the reset/close idempotence theorem applied to a world
holding one live tracked context. -/
theorem safeReset_idempotent_no_double_close_witness :
    resetDemoWorld.live.count 0 ≤ 1 ∧
    (safeResetAudioContext (safeResetAudioContext resetDemoWorld)
        = safeResetAudioContext resetDemoWorld ∧
      safelyCloseAudioContext (safelyCloseAudioContext resetDemoWorld 0) 0
        = safelyCloseAudioContext resetDemoWorld 0 ∧
      (safelyCloseAudioContext resetDemoWorld 0).closeCalls 0
        ≤ resetDemoWorld.closeCalls 0 + 1) :=
  ⟨by decide, safeReset_idempotent_no_double_close resetDemoWorld 0 (by decide)⟩

/-- C2 (amended): on a wrap conflict `createNewContext` closes the tracked
context before the retry, retries the wrap exactly once (two wrap attempts
in total), reports failure when the retry also conflicts, and after a
successful retry tracks exactly the retry context while the net number of
open contexts grows by one, because the context constructed for the failed
first attempt stays open. -/
theorem createNewContext_conflict_retry :
    ∀ (w : AudioWorld) (c : Nat),
      w.wrappedBy = some c → w.live.count c = 1 → c < w.nextId →
      (w.tracked = some c →
        (createNewContext w).2 = true ∧
        (createNewContext w).1.tracked = some (w.nextId + 1) ∧
        c ∉ (createNewContext w).1.live ∧
        (createNewContext w).1.wrapAttempts = w.wrapAttempts + 2 ∧
        (createNewContext w).1.live.length = w.live.length + 1) ∧
      (w.tracked = none →
        (createNewContext w).2 = false ∧
        (createNewContext w).1.wrapAttempts = w.wrapAttempts + 2) := by
  intro w c hwb hcount hlt
  obtain ⟨nid, live, wb, tr, ta, ts, wa, cc⟩ := w
  simp only at hwb hcount hlt
  subst hwb
  have hmem : c ∈ live := List.count_pos_iff.mp (by omega)
  have hnot : c ∉ live.erase c := erase_no_second_copy (by omega)
  have hlen : (live.erase c).length = live.length - 1 := List.length_erase_of_mem hmem
  have hlive1 : 1 ≤ live.length := List.length_pos_of_mem hmem
  constructor
  · intro htr
    simp only at htr
    subst htr
    have herase : (nid :: live).erase c = nid :: live.erase c :=
      List.erase_cons_tail (by simp; omega)
    have hcond : ¬ (c = nid + 1 ∨ c = nid) := by omega
    simp only [createNewContext, wrapConflict, safelyCloseAudioContext]
    simp [hmem, herase, hnot, hcond]
    omega
  · intro htr
    simp only at htr
    subst htr
    simp only [createNewContext, wrapConflict, safelyCloseAudioContext]
    simp [hmem]

/-- C2 (witness): the conflict-retry theorem applied to the world reached
by one successful `createNewContext` on a fresh world: one live context
that wraps the element and is tracked. -/
theorem createNewContext_conflict_retry_witness :
    (conflictDemoWorld.wrappedBy = some 0 ∧ conflictDemoWorld.live.count 0 = 1 ∧
      0 < conflictDemoWorld.nextId) ∧
    (conflictDemoWorld.tracked = some 0 →
      (createNewContext conflictDemoWorld).2 = true ∧
      (createNewContext conflictDemoWorld).1.tracked = some (conflictDemoWorld.nextId + 1) ∧
      0 ∉ (createNewContext conflictDemoWorld).1.live ∧
      (createNewContext conflictDemoWorld).1.wrapAttempts
        = conflictDemoWorld.wrapAttempts + 2 ∧
      (createNewContext conflictDemoWorld).1.live.length
        = conflictDemoWorld.live.length + 1) :=
  ⟨⟨by decide, by decide, by decide⟩,
    (createNewContext_conflict_retry conflictDemoWorld 0 (by decide) (by decide)
      (by decide)).1⟩

/-- C10: in shuffle mode at the end of the history, a single-track list
makes the next-track computation return the current index, and an empty
track list makes it return -1, upon which the next-track request leaves
the current index and the loaded track unchanged. -/
theorem shuffle_next_degenerate_sizes :
    ∀ (rand : Nat) (s : Session), s.isShuffled = true →
      (s.shuffleHistory.length : Int) - 1 ≤ s.shuffleHistoryIndex →
      (s.tracksLen = 1 → getNextTrackIndex rand s = s.currentTrackIndex) ∧
      (s.tracksLen = 0 →
        getNextTrackIndex rand s = -1 ∧
        (handleNextTrack rand s).currentTrackIndex = s.currentTrackIndex ∧
        (handleNextTrack rand s).currentTrack = s.currentTrack) := by
  intro rand s hs hcur
  have hnotlt : ¬ (s.shuffleHistoryIndex < (s.shuffleHistory.length : Int) - 1) := by omega
  constructor
  · intro h1
    simp [getNextTrackIndex, hs, h1, hnotlt]
  · intro h0
    have hnext : getNextTrackIndex rand s = -1 := by
      simp [getNextTrackIndex, hs, h0]
    refine ⟨hnext, ?_, ?_⟩ <;> simp [handleNextTrack, hnext]

theorem availableIndexes_length_pos (n : Nat) (cur : Int) (hn : 2 ≤ n) :
    0 < (availableIndexes n cur).length := by
  by_contra h
  push_neg at h
  have hnil : availableIndexes n cur = [] :=
    List.eq_nil_of_length_eq_zero (Nat.le_zero.mp h)
  unfold availableIndexes at hnil
  have hall := List.filter_eq_nil_iff.mp hnil
  have h0 : (0 : Int) ∈ (List.range n).map fun i : Nat => (i : Int) := by
    have hm : (0 : Nat) ∈ List.range n := List.mem_range.mpr (by omega)
    exact List.mem_map_of_mem (fun i : Nat => (i : Int)) hm
  have h1 : (1 : Int) ∈ (List.range n).map fun i : Nat => (i : Int) := by
    have hm : (1 : Nat) ∈ List.range n := List.mem_range.mpr (by omega)
    exact List.mem_map_of_mem (fun i : Nat => (i : Int)) hm
  have e0 := hall _ h0
  have e1 := hall _ h1
  simp at e0 e1
  omega

theorem availableIndexes_nonneg {n : Nat} {cur x : Int}
    (hx : x ∈ availableIndexes n cur) : 0 ≤ x := by
  unfold availableIndexes at hx
  obtain ⟨a, _, rfl⟩ := List.mem_map.mp (List.mem_filter.mp hx).1
  exact Int.natCast_nonneg a

theorem jsGet_mem_of_lt (l : List Int) (i : Nat) (h : i < l.length) :
    jsGet l (i : Int) ∈ l := by
  unfold jsGet
  rw [if_pos (Int.natCast_nonneg i)]
  have ht : ((i : Int)).toNat = i := by omega
  rw [ht, List.getD_eq_getElem?_getD, List.getElem?_eq_getElem h]
  exact List.getElem_mem h

theorem jsGet_concat_prefix (l : List Int) (x cur : Int)
    (hlast : l.getLast? = some cur) (hlen : 1 ≤ l.length) :
    jsGet (l ++ [x]) ((l.length : Int) - 1) = cur := by
  unfold jsGet
  rw [if_pos (by omega)]
  have ht : ((l.length : Int) - 1).toNat = l.length - 1 := by omega
  have hidx : l.length - 1 < l.length := by omega
  rw [ht, List.getD_eq_getElem?_getD, List.getElem?_append_left hidx]
  rw [List.getLast?_eq_getElem?] at hlast
  rw [hlast]
  rfl

theorem handlePreviousTrack_keeps_history (s : Session) :
    (handlePreviousTrack s).shuffleHistory = s.shuffleHistory := by
  unfold handlePreviousTrack
  by_cases h : getPreviousTrackIndex s ≠ -1
  · by_cases h2 : s.isShuffled ∧ 0 < s.shuffleHistoryIndex <;> simp [h, h2]
  · simp [h]

theorem handleNextTrack_step (r : Nat) (s : Session) (hinv : ShuffleInv s)
    (hn : 2 ≤ s.tracksLen) :
    ShuffleInv (handleNextTrack r s) ∧
    (handleNextTrack r s).tracksLen = s.tracksLen ∧
    (handleNextTrack r s).shuffleHistory
      = s.shuffleHistory ++ [(handleNextTrack r s).currentTrackIndex] := by
  obtain ⟨hsh, hlen, hcur, hlast, hpos⟩ := hinv
  have g0 : ¬ s.tracksLen = 0 := by omega
  have g1 : ¬ (s.shuffleHistoryIndex < (s.shuffleHistory.length : Int) - 1) := by omega
  have g2 : 1 < s.tracksLen := by omega
  have hbranch : getNextTrackIndex r s
      = jsGet (availableIndexes s.tracksLen s.currentTrackIndex)
          ((r % (availableIndexes s.tracksLen s.currentTrackIndex).length : Nat) : Int) := by
    unfold getNextTrackIndex
    simp [hsh, g0, g1, g2]
  have hmemA : getNextTrackIndex r s
      ∈ availableIndexes s.tracksLen s.currentTrackIndex := by
    rw [hbranch]
    exact jsGet_mem_of_lt _ _
      (Nat.mod_lt _ (availableIndexes_length_pos _ _ hn))
  have hge : 0 ≤ getNextTrackIndex r s := availableIndexes_nonneg hmemA
  have hne : ¬ (getNextTrackIndex r s = -1) := by omega
  have htoNat : (s.shuffleHistoryIndex + 1).toNat = s.shuffleHistory.length := by omega
  have htake : s.shuffleHistory.take (s.shuffleHistoryIndex + 1).toNat
      = s.shuffleHistory := by
    rw [htoNat, List.take_length]
  refine ⟨⟨?_, ?_, ?_, ?_, ?_⟩, ?_, ?_⟩ <;>
    simp [handleNextTrack, hne, hsh, g1, htake, ShuffleInv, List.getLast?_concat, hge]

theorem applyNexts_preserves (rs : List Nat) (s : Session) (hinv : ShuffleInv s)
    (hn : 2 ≤ s.tracksLen) :
    ShuffleInv (applyNexts s rs) ∧ (applyNexts s rs).tracksLen = s.tracksLen := by
  induction rs generalizing s with
  | nil => exact ⟨hinv, rfl⟩
  | cons r rs ih =>
    have hstep := handleNextTrack_step r s hinv hn
    have hrec := ih (handleNextTrack r s) hstep.1 (by omega)
    refine ⟨hrec.1, ?_⟩
    rw [applyNexts] at hrec ⊢
    simp only [List.foldl_cons]
    omega

/-- C8: in shuffle mode, after enabling shuffle on a selected track and at
least two next-track requests, a previous request returns exactly the
entry recorded one slot back in the shuffle history, which is the track
index that was current before the last next request; the request only
moves the cursor back and leaves the history list unchanged. -/
theorem shuffle_previous_replays_history :
    ∀ (n : Nat) (i0 : Int) (rs : List Nat) (r : Nat),
      2 ≤ n → 0 ≤ i0 → 1 ≤ rs.length →
      let s0 : Session :=
        { tracksLen := n, currentTrackIndex := i0, currentTrack := some i0,
          isShuffled := false, shuffleHistory := [], shuffleHistoryIndex := -1 }
      let sPrev := applyNexts (handleShuffleChange true s0) rs
      let s := handleNextTrack r sPrev
      (handlePreviousTrack s).shuffleHistory = s.shuffleHistory ∧
      getPreviousTrackIndex s = jsGet s.shuffleHistory (s.shuffleHistoryIndex - 1) ∧
      getPreviousTrackIndex s = sPrev.currentTrackIndex ∧
      (handlePreviousTrack s).currentTrackIndex = sPrev.currentTrackIndex ∧
      (handlePreviousTrack s).shuffleHistoryIndex = s.shuffleHistoryIndex - 1 := by
  intro n i0 rs r hn hi0 _hrs
  intro s0 sPrev s
  have hseed : ShuffleInv (handleShuffleChange true s0) := by
    have hne : ¬ (s0.currentTrackIndex = -1) := by
      simp only [s0]
      omega
    refine ⟨?_, ?_, ?_, ?_, ?_⟩ <;> simp [handleShuffleChange, hne, ShuffleInv, s0, hi0]
  have hseedLen : (handleShuffleChange true s0).tracksLen = n := by
    have hne : ¬ (s0.currentTrackIndex = -1) := by
      simp only [s0]
      omega
    simp [handleShuffleChange, hne, s0]
  have hPrev := applyNexts_preserves rs (handleShuffleChange true s0) hseed (by omega)
  have hinvPrev : ShuffleInv sPrev := hPrev.1
  have h2 := hPrev.2
  have hnPrev : 2 ≤ sPrev.tracksLen := by
    show 2 ≤ (applyNexts (handleShuffleChange true s0) rs).tracksLen
    omega
  have hstep := handleNextTrack_step r sPrev hinvPrev hnPrev
  have hinvS : ShuffleInv s := hstep.1
  obtain ⟨hshS, hlenS, hcurS, hlastS, hposS⟩ := hinvS
  obtain ⟨hshP, hlenP, hcurP, hlastP, hposP⟩ := hinvPrev
  have hhist : s.shuffleHistory = sPrev.shuffleHistory ++ [s.currentTrackIndex] :=
    hstep.2.2
  have hlenEq : s.shuffleHistory.length = sPrev.shuffleHistory.length + 1 := by
    rw [hhist]
    simp
  have hcursor1 : 0 < s.shuffleHistoryIndex := by omega
  have hprevIdx : getPreviousTrackIndex s
      = jsGet s.shuffleHistory (s.shuffleHistoryIndex - 1) := by
    unfold getPreviousTrackIndex
    have hcond : 0 < s.shuffleHistory.length ∧ 0 < s.shuffleHistoryIndex := by omega
    simp [hshS, hcond]
  have hidxEq : s.shuffleHistoryIndex - 1 = (sPrev.shuffleHistory.length : Int) - 1 := by
    omega
  have hval : jsGet s.shuffleHistory (s.shuffleHistoryIndex - 1)
      = sPrev.currentTrackIndex := by
    rw [hidxEq, hhist]
    exact jsGet_concat_prefix _ _ _ hlastP hlenP
  have hvalNe : ¬ (getPreviousTrackIndex s = -1) := by
    rw [hprevIdx, hval]
    omega
  have hbr : (handlePreviousTrack s).currentTrackIndex = sPrev.currentTrackIndex ∧
      (handlePreviousTrack s).shuffleHistoryIndex = s.shuffleHistoryIndex - 1 := by
    have hcond2 : s.isShuffled ∧ 0 < s.shuffleHistoryIndex := ⟨by simp [hshS], hcursor1⟩
    have hPne : ¬ (sPrev.currentTrackIndex = -1) := by omega
    constructor <;> simp [handlePreviousTrack, hvalNe, hcond2, hprevIdx, hval, hPne]
  exact ⟨handlePreviousTrack_keeps_history s, hprevIdx, by rw [hprevIdx, hval],
    hbr.1, hbr.2⟩

/-- C8 (witness): the shuffle-previous theorem applied to a two-track
playlist, shuffle enabled at index 0, followed by two next requests with
oracle value 0. -/
theorem shuffle_previous_replays_history_witness :
    (2 ≤ 2 ∧ (0 : Int) ≤ 0 ∧ 1 ≤ ([0] : List Nat).length) ∧
    (let s0 : Session :=
      { tracksLen := 2, currentTrackIndex := 0, currentTrack := some 0,
        isShuffled := false, shuffleHistory := [], shuffleHistoryIndex := -1 }
     let sPrev := applyNexts (handleShuffleChange true s0) [0]
     let s := handleNextTrack 0 sPrev
     (handlePreviousTrack s).shuffleHistory = s.shuffleHistory ∧
     getPreviousTrackIndex s = jsGet s.shuffleHistory (s.shuffleHistoryIndex - 1) ∧
     getPreviousTrackIndex s = sPrev.currentTrackIndex ∧
     (handlePreviousTrack s).currentTrackIndex = sPrev.currentTrackIndex ∧
     (handlePreviousTrack s).shuffleHistoryIndex = s.shuffleHistoryIndex - 1) :=
  ⟨⟨by decide, by decide, by decide⟩,
    shuffle_previous_replays_history 2 0 [0] 0 (by decide) (by decide) (by decide)⟩

/-- C10 (witness): the degenerate-size theorem applied to a one-track
shuffle session with the cursor at the end of its history. -/
theorem shuffle_next_degenerate_sizes_witness :
    (shuffleDemoOne.isShuffled = true ∧
      (shuffleDemoOne.shuffleHistory.length : Int) - 1 ≤ shuffleDemoOne.shuffleHistoryIndex) ∧
    (shuffleDemoOne.tracksLen = 1 →
      getNextTrackIndex 0 shuffleDemoOne = shuffleDemoOne.currentTrackIndex) :=
  ⟨⟨rfl, by decide⟩, (shuffle_next_degenerate_sizes 0 shuffleDemoOne rfl (by decide)).1⟩

theorem rpow_blend_bound (x : Real) (hx : 0 ≤ x) :
    Real.rpow (min 1 x) 0.8 * 0.8 ∈ Set.Icc (0 : Real) 0.8 := by
  have h0 : 0 ≤ min 1 x := le_min (by norm_num) hx
  have h1 : min 1 x ≤ 1 := min_le_left _ _
  have hr0 : 0 ≤ Real.rpow (min 1 x) 0.8 := Real.rpow_nonneg h0 _
  have hr1 : Real.rpow (min 1 x) 0.8 ≤ 1 := Real.rpow_le_one h0 h1 (by norm_num)
  rw [Set.mem_Icc]
  constructor
  · exact mul_nonneg hr0 (by norm_num)
  · calc Real.rpow (min 1 x) 0.8 * 0.8 ≤ 1 * 0.8 :=
        mul_le_mul_of_nonneg_right hr1 (by norm_num)
    _ = 0.8 := one_mul _

/-- C4: every analysis tick publishes exactly the value given by the
specification formula over the lowest 8 bins (mean and peak normalized by
255, blended 0.7/0.3, capped at 1, then pow 0.8 and a 0.8 scale), and the
published value always lies in [0, 0.8]. -/
theorem bass_formula_and_range :
    ∀ s : AnalyzerState,
      (runAnalyze s).bassValue = specBassOutput s.data ∧
      (runAnalyze s).bassValue ∈ Set.Icc (0 : Real) 0.8 := by
  intro s
  have hval : (runAnalyze s).bassValue = analyzeBassValue s.data := rfl
  constructor
  · rw [hval]
    unfold analyzeBassValue specBassOutput
    simp only [List.length_map, List.length_range]
    norm_num [div_div]
  · rw [hval]
    unfold analyzeBassValue
    exact rpow_blend_bound _ (by positivity)

/-- C7: when the playing flag turns false, the effect transition cancels
the scheduled animation frame and nulls its handle, resets the published
bass value to 0 at once, and no amount of subsequent tick firings changes
the state: no further ticks run while not playing. -/
theorem analysis_stops_on_pause :
    ∀ s : AnalyzerState,
      (setPlayingFalse s).scheduledTick = none ∧
      (setPlayingFalse s).bassValue = 0 ∧
      ∀ k : Nat, stepTick^[k] (setPlayingFalse s) = setPlayingFalse s := by
  intro s
  have h : setPlayingFalse s
      = { s with isPlaying := false, scheduledTick := none, bassValue := 0 } := by
    unfold setPlayingFalse effectBody effectCleanup
    simp
  have hfix : stepTick (setPlayingFalse s) = setPlayingFalse s := by
    rw [h]
    rfl
  exact ⟨by rw [h], by rw [h], fun k => Function.iterate_fixed hfix k⟩

end Spotify
